import Mathlib

/-!
# Verification of the frontend-meta-prompts engine

Shallow embedding of the repository's core:

* the session store (`src/unnamed/part_000`, the current `engine/sessionRunner.ts`:
  it is the variant that exports `listSessions`, which the HTTP server and the
  CLI import from the engine; the snapshot under `src/engine/sessionRunner.ts`
  lacks `listSessions` and is identical otherwise except that its
  `isValidSession` omits the `junior` level),
* the prompt composer (`src/engine/composeInterviewPrompt.ts`), with the
  template/config shapes of the shared types file (`src/unnamed/part_002`),
* the heuristic scorer (`src/engine/scorer.ts`).

JavaScript numbers are modelled as an inductive with NaN, the two infinities
and finite rationals (every finite double is a rational; the literals 0, 10,
2, 3 and 200 appearing in the code are exactly representable, so IEEE
comparisons and the arithmetic used here agree with the rational model).
JSON values are a standard inductive; a parsed JS object is its property list
(unique keys, insertion order), property read is first-match lookup and
property assignment replaces the value in place or appends a fresh key, as in
JavaScript.  Fallible operations return `Except String`.
-/

namespace FMP

/-- A JavaScript number: NaN, ±Infinity, or a finite value (modelled as ℚ). -/
inductive JSNum where
  | nan
  | posInf
  | negInf
  | finite (q : ℚ)

/-- Embeds `Number.isFinite`. -/
def JSNum.isFinite : JSNum → Bool
  | .finite _ => true
  | _ => false

/-- The IEEE `<` comparison on JS numbers: any comparison with NaN is false. -/
def JSNum.lt : JSNum → JSNum → Bool
  | .nan, _ => false
  | _, .nan => false
  | .negInf, .negInf => false
  | .negInf, _ => true
  | _, .negInf => false
  | .posInf, _ => false
  | .finite _, .posInf => true
  | .finite a, .finite b => decide (a < b)

/-- A JSON value, as produced by `JSON.parse`.  An object is its ordered
property list; `JSON.parse` yields unique keys in insertion order. -/
inductive Json where
  | null
  | bool (b : Bool)
  | num (n : JSNum)
  | str (s : String)
  | arr (elems : List Json)
  | obj (fields : List (String × Json))

/-- Property read `value[key]` on a parsed value: first matching key of an
object, `undefined` (i.e. `none`) otherwise. -/
def Json.getField : Json → String → Option Json
  | .obj fields, key => (fields.find? (fun p => p.1 == key)).map (fun p => p.2)
  | _, _ => none

/-- Property assignment on a property list: overwrite the first binding with
the key in place, or append a fresh binding (JS object assignment). -/
def setProp : List (String × Json) → String → Json → List (String × Json)
  | [], key, v => [(key, v)]
  | (k, w) :: rest, key, v =>
      if k == key then (k, v) :: rest else (k, w) :: setProp rest key v

/-- Property assignment `value[key] = v` (no effect on non-objects; the store
only ever assigns on records that passed validation, which are objects). -/
def Json.setField : Json → String → Json → Json
  | .obj fields, key, v => .obj (setProp fields key v)
  | j, _, _ => j

/-- Candidate seniority level (`"junior" | "middle" | "senior"`). -/
inductive Level where
  | junior
  | middle
  | senior
deriving DecidableEq

/-- The string a level serializes to. -/
def Level.toStr : Level → String
  | .junior => "junior"
  | .middle => "middle"
  | .senior => "senior"

/-! ## Session store (src/unnamed/part_000) -/

/-- The observable states of the session file `data/sessions.json`:
absent (`fs.existsSync` false), present but whitespace-only (`raw.trim()`
falsy), present but not valid JSON (`JSON.parse` throws), or parsed to a
JSON value. -/
inductive StoreFile where
  | missing
  | blank
  | malformed
  | parsed (v : Json)

/-- The test `typeof x === "string"` applied to a (possibly absent) property. -/
def jsTypeofString (o : Option Json) : Bool :=
  match o with
  | some (.str _) => true
  | _ => false

/-- Strict equality `x === lit` of a (possibly absent) property against a
string literal. -/
def jsEqStr (o : Option Json) (lit : String) : Bool :=
  match o with
  | some (.str t) => t == lit
  | _ => false

/-- The test `x === undefined` for a property: absent from the object. -/
def isUndefinedProp (o : Option Json) : Bool :=
  o.isNone

/-- The test `Number.isFinite(x)` applied to a (possibly absent) property: false on
anything but a finite number. -/
def jsIsFiniteNum (o : Option Json) : Bool :=
  match o with
  | some (.num n) => n.isFinite
  | _ => false

/-- Embeds `isValidSession` (part_000 lines 16-30): the candidate must be a non-null
object whose `id`, `date`, `templateId` are strings (`typeof === "string"`;
emptiness is NOT checked), whose `level` is one of the three level strings,
whose `score` is absent or a finite number, and whose `notes` is absent or a
string.  (Arrays pass the `typeof === "object"` guard in the source but fail
the core checks since their named properties are absent; the catch-all branch
below is therefore equivalent.) -/
def isValidSession (value : Json) : Bool :=
  match value with
  | .obj _ =>
      let hasValidCore :=
        jsTypeofString (value.getField "id") &&
        jsTypeofString (value.getField "date") &&
        jsTypeofString (value.getField "templateId") &&
        (jsEqStr (value.getField "level") "junior" ||
         jsEqStr (value.getField "level") "middle" ||
         jsEqStr (value.getField "level") "senior")
      let hasValidScore :=
        isUndefinedProp (value.getField "score") || jsIsFiniteNum (value.getField "score")
      let hasValidNotes :=
        isUndefinedProp (value.getField "notes") || jsTypeofString (value.getField "notes")
      hasValidCore && hasValidScore && hasValidNotes
  | _ => false

/-- Embeds `validateScore` (part_000 lines 32-36): throws unless the score is a
finite number within [0, 10]. -/
def validateScore (score : JSNum) : Except String Unit :=
  if !score.isFinite || JSNum.lt score (.finite 0) || JSNum.lt (.finite 10) score then
    .error "Score must be a finite number between 0 and 10"
  else
    .ok ()

/-- Embeds `readSessions` (part_000 lines 38-53): missing, blank or unparsable file,
or a non-array top level, each yield `[]`; an array is filtered element-wise
through `isValidSession`. -/
def readSessions : StoreFile → List Json
  | .parsed (.arr elems) => elems.filter isValidSession
  | _ => []

/-- Embeds `writeSessions` (part_000 lines 55-64): serializes the full list and
atomically replaces the store file; the resulting file parses back to exactly
that array. -/
def writeSessions (sessions : List Json) : StoreFile :=
  .parsed (.arr sessions)

/-- The raw element list persisted in the store file (empty when the file is
not a parsed array). -/
def storedRecords : StoreFile → List Json
  | .parsed (.arr elems) => elems
  | _ => []

/-- The object literal built by `createSession` (part_000 lines 70-75):
`{ id, date, templateId, level }`, no score, no notes. -/
def encodeNewSession (freshId nowDate templateId : String) (level : Level) : Json :=
  .obj [("id", .str freshId), ("date", .str nowDate),
        ("templateId", .str templateId), ("level", .str level.toStr)]

/-- Embeds `createSession` (part_000 lines 66-82).  `freshId` and `nowDate` inject
the results of `crypto.randomUUID()` and `new Date().toISOString()`.  Returns
the new record and the store file after the write. -/
def createSession (file : StoreFile) (templateId : String) (level : Level)
    (freshId nowDate : String) : Json × StoreFile :=
  let newSession := encodeNewSession freshId nowDate templateId level
  let sessions := readSessions file
  (newSession, writeSessions (sessions ++ [newSession]))

/-- The strict-equality test `s.id === sessionId` used by the store's
`find` callback (the compared records passed validation, so `s.id` is a
string). -/
def sessionIdIs (s : Json) (sessionId : String) : Bool :=
  match s.getField "id" with
  | some (.str i) => i == sessionId
  | _ => false

/-- The in-place mutation performed on the found record
(part_000 lines 92-95): set `score`, and set `notes` only when provided. -/
def applyScoreUpdate (score : JSNum) (notes : Option String) (s : Json) : Json :=
  let s1 := s.setField "score" (.num score)
  match notes with
  | some n => s1.setField "notes" (.str n)
  | none => s1

/-- The call `sessions.find(s => s.id === sessionId)` followed by the in-place update:
returns the list with the first matching record updated, or `none` when no
record matches. -/
def updateFirstSession (sessionId : String) (score : JSNum) (notes : Option String) :
    List Json → Option (List Json)
  | [] => none
  | s :: rest =>
      if sessionIdIs s sessionId then
        some (applyScoreUpdate score notes s :: rest)
      else
        (updateFirstSession sessionId score notes rest).map (fun l => s :: l)

/-- Embeds `updateSessionScore` (part_000 lines 84-98): validate the score, re-read
the store, find the record by id (throwing "Session not found" when absent),
mutate it and persist the full list.  Returns the store file after the
operation. -/
def updateSessionScore (file : StoreFile) (sessionId : String) (score : JSNum)
    (notes : Option String) : Except String StoreFile :=
  match validateScore score with
  | .error e => .error e
  | .ok () =>
      let sessions := readSessions file
      match updateFirstSession sessionId score notes sessions with
      | none => .error "Session not found"
      | some updated => .ok (writeSessions updated)

/-- The store file after `updateSessionScore`: unchanged when the operation
throws (the code throws strictly before any write). -/
def updateSessionScoreFile (file : StoreFile) (sessionId : String) (score : JSNum)
    (notes : Option String) : StoreFile :=
  match updateSessionScore file sessionId score notes with
  | .ok f => f
  | .error _ => file

/-- The `date` property of a validated record (used by the sort comparator
`b.date.localeCompare(a.date)`; on validated records the property is a
string, and `localeCompare` on ISO-8601 timestamps agrees with lexicographic
string order). -/
def dateOf (s : Json) : String :=
  match s.getField "date" with
  | some (.str d) => d
  | _ => ""

/-- The sort order used by `listSessions`: `a` precedes `b` when the
comparator `b.date.localeCompare(a.date)` is non-positive, i.e. descending by
date. -/
def sessionLe (a b : Json) : Bool :=
  decide (dateOf b ≤ dateOf a)

/-- Embeds `listSessions` (part_000 lines 100-102): the valid records, sorted with
JavaScript's (ES2019+, stable) `Array.prototype.sort` under the descending
date comparator. -/
def listSessions (file : StoreFile) : List Json :=
  (readSessions file).mergeSort sessionLe

/-! ## String utilities (JS `String.prototype.includes`) -/

/-- Whether `pat` is a leading block of `l`. -/
def listStartsWith : List Char → List Char → Bool
  | [], _ => true
  | _ :: _, [] => false
  | p :: ps, c :: cs => p == c && listStartsWith ps cs

/-- Whether `pat` occurs contiguously somewhere in `l`. -/
def listHasSub (pat : List Char) : List Char → Bool
  | [] => listStartsWith pat []
  | c :: cs => listStartsWith pat (c :: cs) || listHasSub pat cs

/-- JavaScript `s.includes(pat)`. -/
def strIncludes (s pat : String) : Bool :=
  listHasSub pat.toList s.toList

/-! ## Scorer (src/engine/scorer.ts) -/

/-- The result shape of the heuristic scorer. -/
structure Evaluation where
  score : ℚ
  strengths : List String
  weaknesses : List String
  recommendations : List String

/-- JavaScript `Math.round` on the non-negative finite values arising here:
round half toward +∞. -/
def jsRound (q : ℚ) : ℤ :=
  ⌊q + 1 / 2⌋

/-- Embeds `basicScoreEvaluation` (scorer.ts lines 8-28).  `answer.length / 200` is
modelled exactly in ℚ; the truthiness tests `tradeOffBonus ?` / `score < 6`
etc. are modelled by the corresponding numeric conditions. -/
def basicScoreEvaluation (answer : String) : Evaluation :=
  let hasTradeOff := strIncludes answer.toLower "trade-off"
  let hasComplexity := strIncludes answer.toLower "o("
  let lengthScore : ℚ := min ((answer.length : ℚ) / 200) 3
  let tradeOffBonus : ℚ := if hasTradeOff then 2 else 0
  let complexityBonus : ℚ := if hasComplexity then 2 else 0
  let rawScore := lengthScore + tradeOffBonus + complexityBonus
  let score : ℚ := min ((jsRound rawScore : ℚ)) 10
  { score := score,
    strengths :=
      ([if hasTradeOff then "Discussed trade-offs" else "",
        if hasComplexity then "Mentioned complexity analysis" else ""]).filter
        (fun s => s != ""),
    weaknesses := if score < 6 then ["Answer lacks depth or structure"] else [],
    recommendations :=
      if score < 7 then
        ["Add trade-offs", "Add edge cases", "Be more structured"]
      else
        ["Improve clarity and communication polish"] }

/-! ## Prompt composer (src/engine/composeInterviewPrompt.ts, shapes from
src/unnamed/part_002) -/

/-- The nine output-section tags of `IncludeSection`. -/
inductive IncludeSection where
  | idealAnswer
  | commonMistakes
  | edgeCases
  | tradeOffs
  | seniorVsMiddle
  | scoringRubric
  | measurementPlan
  | rolloutPlan
  | securityConsiderations
deriving DecidableEq

/-- The `promptOverrides` block of a template (part_002 lines 21-26); every field
optional.  (`include` is a Lean keyword, hence the field name
`includeSections`.) -/
structure PromptOverrides where
  followUps : Option Nat := none
  includeSections : Option (List IncludeSection) := none
  plainLanguage : Option Bool := none
  goodAnswerCriteria : Option (List String) := none

/-- Embeds `InterviewTemplate` (part_002 lines 14-27). -/
structure InterviewTemplate where
  id : String
  title : String
  levels : List Level
  focus : List String
  questionStyles : List String
  constraints : Option (List String) := none
  promptOverrides : Option PromptOverrides := none

/-- The configured default language. -/
inductive Lang where
  | ru
  | en
deriving DecidableEq

/-- The `defaults` block of `InterviewConfig`. -/
structure Defaults where
  companyBar : String
  stack : List String
  language : Lang
  followUps : Nat
  includeSections : List IncludeSection
  simulation : Bool
  timeboxedMinutes : Nat

/-- Embeds `InterviewConfig` (part_002 lines 29-41). -/
structure InterviewConfig where
  version : String
  defaults : Defaults
  templates : List InterviewTemplate

/-- The optional `mode` block of `ComposeOptions`. -/
structure ModeOptions where
  simulation : Option Bool := none
  english : Option Bool := none
  timeboxedMinutes : Option Nat := none

/-- Embeds `ComposeOptions` (composeInterviewPrompt.ts lines 36-47). -/
structure ComposeOptions where
  templateId : String
  level : Level
  stack : Option (List String) := none
  mode : Option ModeOptions := none
  extraContext : Option String := none
  focusBoost : Option (List String) := none

/-- The lookup `config.templates.find(t => t.id === opts.templateId)`. -/
def findTemplate (config : InterviewConfig) (templateId : String) :
    Option InterviewTemplate :=
  config.templates.find? (fun t => t.id == templateId)

/-- The join `lines.join("\n")` over the pushed lines. -/
def joinLines : List String → String
  | [] => ""
  | l :: rest =>
      match rest with
      | [] => l
      | _ :: _ => l ++ "\n" ++ joinLines rest

/-- The `lines` array built by `composeInterviewPrompt` (lines 57-144) after
the template and level checks passed.  Lines 62-63 of the source read the
follow-up count and the include set from `config.defaults` only; the
template's `promptOverrides` are never consulted. -/
def composeLines (config : InterviewConfig) (opts : ComposeOptions)
    (tpl : InterviewTemplate) : List String :=
  let stack := opts.stack.getD config.defaults.stack
  let simulation := (opts.mode.bind (fun m => m.simulation)).getD config.defaults.simulation
  let timeboxed := (opts.mode.bind (fun m => m.timeboxedMinutes)).getD
    config.defaults.timeboxedMinutes
  let englishMode := (opts.mode.bind (fun m => m.english)).getD false
  let includeSections := config.defaults.includeSections
  let followUps := config.defaults.followUps
  let uniqFocus := (tpl.focus ++ opts.focusBoost.getD []).eraseDups
  let constraints := tpl.constraints.getD []
  ["ROLE:",
   "You are a senior frontend interviewer at a " ++ config.defaults.companyBar ++ "."]
  ++ ["",
      "CONTEXT:",
      "Candidate level: " ++ opts.level.toStr,
      "Stack: " ++ String.intercalate " + " stack,
      "Interview module: " ++ tpl.title,
      "Focus: " ++ String.intercalate ", " uniqFocus,
      "Question styles: " ++ String.intercalate ", " tpl.questionStyles]
  ++ (match opts.extraContext with
      | some ec => if ec.trim != "" then ["Extra context: " ++ ec.trim] else []
      | none => [])
  ++ ["",
      "TASK:",
      "Run a realistic interview segment. Ask 1 main question and " ++
        toString followUps ++ " follow-up questions, progressively harder."]
  ++ (if constraints.isEmpty then []
      else ["", "CONSTRAINTS:"] ++ constraints.map (fun c => "- " ++ c))
  ++ ["", "MODE:", "- Timebox: " ++ toString timeboxed ++ " minutes"]
  ++ (if simulation then
        ["- Simulation: DO NOT provide the answer immediately. Wait for my response."]
      else
        ["- Provide both questions and ideal answers immediately."])
  ++ (if englishMode then
        ["- Conduct the interview in English and after my reply correct my English and suggest more native phrasing."]
      else if config.defaults.language = Lang.ru then
        ["- Speak Russian unless I answer in English."]
      else [])
  ++ ["", "OUTPUT FORMAT:", "1) Main question",
      "2) Follow-ups (" ++ toString followUps ++ ")"]
  ++ (if simulation then
        ["3) Wait for my answer", "4) Evaluate my answer strictly like a real interviewer"]
      else
        ["3) Ideal answer (structured)"])
  ++ (if includeSections.contains .commonMistakes then ["- Common mistakes"] else [])
  ++ (if includeSections.contains .edgeCases then ["- Edge cases"] else [])
  ++ (if includeSections.contains .tradeOffs then ["- Trade-offs"] else [])
  ++ (if includeSections.contains .seniorVsMiddle then
        ["- What differentiates Senior vs Middle answer"] else [])
  ++ (if includeSections.contains .scoringRubric then
        ["- Scoring rubric (0-10) with criteria: correctness, depth, clarity, trade-offs, practicality"]
      else [])
  ++ (if includeSections.contains .measurementPlan then
        ["- Measurement plan (what, how, success criteria)"] else [])
  ++ (if includeSections.contains .rolloutPlan then
        ["- Rollout plan (flags, canary, rollback)"] else [])
  ++ (if includeSections.contains .securityConsiderations then
        ["- Security considerations (when relevant)"] else [])

/-- Embeds `composeInterviewPrompt` (lines 49-146): unknown template and unsupported
level throw; otherwise the joined line list is returned. -/
def composeInterviewPrompt (config : InterviewConfig) (opts : ComposeOptions) :
    Except String String :=
  match findTemplate config opts.templateId with
  | none => .error ("Unknown templateId: " ++ opts.templateId)
  | some tpl =>
      if !(tpl.levels.contains opts.level) then
        .error ("Template \"" ++ tpl.id ++ "\" doesn\x27t support level \"" ++
          opts.level.toStr ++ "\"")
      else
        .ok (joinLines (composeLines config opts tpl))

/-- An ambient world for effectful calls: wall clock and entropy.  The
composer, unlike `createSession`, performs no filesystem, clock or randomness
access, so its embedding ignores the world entirely. -/
structure World where
  nowIso : String
  entropy : Nat

/-- Wraps `composeInterviewPrompt` as it would run in a stateful environment: the
output depends only on the configuration and the request. -/
def composeInWorld (_w : World) (config : InterviewConfig) (opts : ComposeOptions) :
    Except String String :=
  composeInterviewPrompt config opts

/-! ## Spec-side predicates and concrete test data -/

/-- The Session invariant exactly as the spec words it (§3): id and date are
NON-EMPTY strings, templateId is a NON-EMPTY string, level is one of the
three levels, score absent or finite, notes absent or a string.  Written from
the spec for comparison against the code's `isValidSession`. -/
def specSessionValid (v : Json) : Bool :=
  (match v.getField "id" with
   | some (.str s) => s != ""
   | _ => false) &&
  (match v.getField "date" with
   | some (.str s) => s != ""
   | _ => false) &&
  (match v.getField "templateId" with
   | some (.str s) => s != ""
   | _ => false) &&
  (jsEqStr (v.getField "level") "junior" ||
   jsEqStr (v.getField "level") "middle" ||
   jsEqStr (v.getField "level") "senior") &&
  (isUndefinedProp (v.getField "score") || jsIsFiniteNum (v.getField "score")) &&
  (isUndefinedProp (v.getField "notes") || jsTypeofString (v.getField "notes"))

/-- The amended Session validity: id, date and templateId need only be
strings (possibly empty); level, score and notes as in the spec. -/
def amendedSessionValid (v : Json) : Prop :=
  (∃ s, v.getField "id" = some (.str s)) ∧
  (∃ s, v.getField "date" = some (.str s)) ∧
  (∃ s, v.getField "templateId" = some (.str s)) ∧
  (v.getField "level" = some (.str "junior") ∨
   v.getField "level" = some (.str "middle") ∨
   v.getField "level" = some (.str "senior")) ∧
  (v.getField "score" = none ∨
   ∃ n, v.getField "score" = some (.num n) ∧ n.isFinite = true) ∧
  (v.getField "notes" = none ∨ ∃ s, v.getField "notes" = some (.str s))

/-- A score that is valid in the sense of the spec: a finite number within
[0, 10]. -/
def validScoreSpec (score : JSNum) : Prop :=
  ∃ q, score = JSNum.finite q ∧ 0 ≤ q ∧ q ≤ 10

/-- A record with an empty `id`: accepted by the code's `isValidSession`,
rejected by the spec's non-emptiness requirement. -/
def emptyIdRecord : Json :=
  .obj [("id", .str ""), ("date", .str "2026-01-01T00:00:00.000Z"),
        ("templateId", .str "js-deep-dive-core"), ("level", .str "junior")]

/-- A template defining `promptOverrides` (followUps 2, include
`[idealAnswer]` only). -/
def overrideTemplate : InterviewTemplate :=
  { id := "t1",
    title := "JS Fundamentals",
    levels := [.junior],
    focus := ["closures"],
    questionStyles := ["deep-dive"],
    promptOverrides :=
      some { followUps := some 2, includeSections := some [.idealAnswer] } }

/-- A configuration whose single template defines `promptOverrides`
(followUps 2, a reduced include set) differing from the defaults
(followUps 3, larger include set): the input on which the composer ignores
the documented template-level overrides. -/
def overrideConfig : InterviewConfig :=
  { version := "1.0",
    defaults :=
      { companyBar := "FAANG-level company",
        stack := ["react", "typescript"],
        language := .en,
        followUps := 3,
        includeSections := [.idealAnswer, .commonMistakes, .tradeOffs],
        simulation := false,
        timeboxedMinutes := 30 },
    templates := [overrideTemplate] }

/-- The compose request exercising `overrideConfig`. -/
def overrideOpts : ComposeOptions :=
  { templateId := "t1", level := .junior }

/-- The text produced for a compose call (error text when the call throws):
a convenience projection for concrete evaluations. -/
def composeOutput (config : InterviewConfig) (opts : ComposeOptions) : String :=
  match composeInterviewPrompt config opts with
  | .ok s => s
  | .error e => e

/-- An already-stored record used by the tie-breaking counterexample. -/
def oldTieRecord : Json :=
  encodeNewSession "old-id" "2026-02-02T10:00:00.000Z" "t1" .senior

/-- The record created afterwards with the SAME timestamp. -/
def newTieRecord : Json :=
  encodeNewSession "new-id" "2026-02-02T10:00:00.000Z" "t1" .senior

/-! ## Characterization of the validity predicate -/

theorem jsTypeofString_iff (o : Option Json) :
    jsTypeofString o = true ↔ ∃ s, o = some (.str s) := by
  rcases o with _ | j
  · simp [jsTypeofString]
  · cases j <;> simp [jsTypeofString]

theorem jsEqStr_iff (o : Option Json) (lit : String) :
    jsEqStr o lit = true ↔ o = some (.str lit) := by
  rcases o with _ | j
  · simp [jsEqStr]
  · cases j <;> simp [jsEqStr]

theorem isUndefinedProp_iff (o : Option Json) :
    isUndefinedProp o = true ↔ o = none := by
  simp [isUndefinedProp, Option.isNone_iff_eq_none]

theorem jsIsFiniteNum_iff (o : Option Json) :
    jsIsFiniteNum o = true ↔ ∃ n, o = some (.num n) ∧ n.isFinite = true := by
  rcases o with _ | j
  · simp [jsIsFiniteNum]
  · cases j <;> simp [jsIsFiniteNum]

theorem isValidSession_iff_amended (v : Json) :
    isValidSession v = true ↔ amendedSessionValid v := by
  cases v <;>
    simp [isValidSession, amendedSessionValid, Bool.and_eq_true, Bool.or_eq_true,
      jsTypeofString_iff, jsEqStr_iff, isUndefinedProp_iff, jsIsFiniteNum_iff, Json.getField,
      and_assoc, or_assoc]

/-! ## Claims -/

/-- C1, counterexample: the record `{id: "", date: ..., templateId: ...,
level: "junior"}` is accepted by `isValidSession` and kept on load, yet its
`id` is empty, so the spec's invariant (non-empty id) rejects it: the
load-time predicate is NOT the spec's predicate. -/
theorem c1_empty_id_kept :
    isValidSession emptyIdRecord = true ∧ specSessionValid emptyIdRecord = false ∧
    readSessions (.parsed (.arr [emptyIdRecord])) = [emptyIdRecord] := by
  refine ⟨by rfl, by rfl, by rfl⟩

/-- C1 (amended): a deserialized element is kept on load if and only if its
id, date and templateId are strings (emptiness is not checked), its level is
one of junior/middle/senior, its score is absent or a finite number and its
notes are absent or a string; all other records are silently dropped. -/
theorem c1_load_validity (elems : List Json) (v : Json) :
    v ∈ readSessions (.parsed (.arr elems)) ↔ v ∈ elems ∧ amendedSessionValid v := by
  simp [readSessions, List.mem_filter, isValidSession_iff_amended]

/-- C6: reading the session store is total — a missing file, a blank file,
an unparsable file each yield `[]`; a parsed top-level value either is an
array or yields `[]`; and on an array exactly the elements satisfying
`isValidSession` are returned. -/
theorem c6_read_never_fails :
    readSessions .missing = [] ∧
    readSessions .blank = [] ∧
    readSessions .malformed = [] ∧
    (∀ v : Json, (∃ elems, v = .arr elems) ∨ readSessions (.parsed v) = []) ∧
    (∀ elems, readSessions (.parsed (.arr elems)) = elems.filter isValidSession) := by
  refine ⟨rfl, rfl, rfl, ?_, fun _ => rfl⟩
  intro v
  cases v with
  | arr elems => exact Or.inl ⟨elems, rfl⟩
  | null => exact Or.inr rfl
  | bool b => exact Or.inr rfl
  | num n => exact Or.inr rfl
  | str s => exact Or.inr rfl
  | obj fields => exact Or.inr rfl

/-- C10: the scorer always returns a score within [0, 10], and that score is
exactly the length component (capped at 3) plus the two fixed
case-insensitive substring bonuses, rounded and capped at 10. -/
theorem c10_scorer_range (answer : String) :
    0 ≤ (basicScoreEvaluation answer).score ∧
    (basicScoreEvaluation answer).score ≤ 10 ∧
    (basicScoreEvaluation answer).score =
      min ((jsRound (min ((answer.length : ℚ) / 200) 3 +
        (if strIncludes answer.toLower "trade-off" then 2 else 0) +
        (if strIncludes answer.toLower "o(" then 2 else 0)) : ℤ) : ℚ) 10 := by
  refine ⟨?_, ?_, rfl⟩
  · show (0 : ℚ) ≤ min ((jsRound (min ((answer.length : ℚ) / 200) 3 +
      (if strIncludes answer.toLower "trade-off" then 2 else 0) +
      (if strIncludes answer.toLower "o(" then 2 else 0)) : ℤ) : ℚ) 10
    have hlen : (0 : ℚ) ≤ min ((answer.length : ℚ) / 200) 3 :=
      le_min (by positivity) (by norm_num)
    have hb1 : (0 : ℚ) ≤ (if strIncludes answer.toLower "trade-off" then 2 else 0) := by
      split <;> norm_num
    have hb2 : (0 : ℚ) ≤ (if strIncludes answer.toLower "o(" then 2 else 0) := by
      split <;> norm_num
    refine le_min ?_ (by norm_num)
    have hfloor : (0 : ℤ) ≤ jsRound (min ((answer.length : ℚ) / 200) 3 +
        (if strIncludes answer.toLower "trade-off" then 2 else 0) +
        (if strIncludes answer.toLower "o(" then 2 else 0)) := by
      refine Int.floor_nonneg.mpr ?_
      linarith
    exact_mod_cast hfloor
  · show min ((jsRound (min ((answer.length : ℚ) / 200) 3 +
      (if strIncludes answer.toLower "trade-off" then 2 else 0) +
      (if strIncludes answer.toLower "o(" then 2 else 0)) : ℤ) : ℚ) 10 ≤ 10
    exact min_le_right _ _

/-- C8: composing is deterministic — under any two ambient worlds (clock,
entropy), a compose call whose template exists and supports the requested
level produces identical text. -/
theorem c8_compose_deterministic (w₁ w₂ : World) (config : InterviewConfig)
    (opts : ComposeOptions) (tpl : InterviewTemplate)
    (_hfind : findTemplate config opts.templateId = some tpl)
    (_hlvl : tpl.levels.contains opts.level = true) :
    composeInWorld w₁ config opts = composeInWorld w₂ config opts := rfl

/-- Witness for C8 at a concrete configuration and two different worlds. -/
theorem c8_compose_deterministic_witness :
    composeInWorld ⟨"2026-01-01T00:00:00.000Z", 0⟩ overrideConfig overrideOpts =
      composeInWorld ⟨"2027-06-15T12:34:56.789Z", 41⟩ overrideConfig overrideOpts :=
  c8_compose_deterministic _ _ overrideConfig overrideOpts overrideTemplate
    (by rfl) (by rfl)

/-! ## Substring and line-joining lemmas -/

theorem listStartsWith_append (pat r : List Char) :
    listStartsWith pat (pat ++ r) = true := by
  induction pat with
  | nil => rfl
  | cons c cs ih => simp [listStartsWith, ih]

theorem listHasSub_of_startsWith (pat l : List Char)
    (h : listStartsWith pat l = true) : listHasSub pat l = true := by
  cases l with
  | nil => simpa [listHasSub] using h
  | cons c cs => simp [listHasSub, h]

theorem listHasSub_cons_of (pat : List Char) (c : Char) (cs : List Char)
    (h : listHasSub pat cs = true) : listHasSub pat (c :: cs) = true := by
  simp [listHasSub, h]

theorem listHasSub_append (pat pre post : List Char) :
    listHasSub pat (pre ++ (pat ++ post)) = true := by
  induction pre with
  | nil => exact listHasSub_of_startsWith _ _ (listStartsWith_append pat post)
  | cons c cs ih => exact listHasSub_cons_of _ _ _ ih

theorem strIncludes_of_data (s pat : String) (pre post : List Char)
    (h : s.data = pre ++ (pat.data ++ post)) : strIncludes s pat = true := by
  show listHasSub pat.toList s.toList = true
  rw [show s.toList = s.data from rfl, show pat.toList = pat.data from rfl, h]
  exact listHasSub_append _ _ _

theorem joinLines_mem_data (l : String) (lines : List String) (h : l ∈ lines) :
    ∃ pre post, (joinLines lines).data = pre ++ (l.data ++ post) := by
  induction lines with
  | nil => cases h
  | cons x rest ih =>
    cases rest with
    | nil =>
      rcases List.mem_singleton.mp h with rfl
      exact ⟨[], [], by simp [joinLines]⟩
    | cons y ys =>
      rcases List.mem_cons.mp h with rfl | hmem
      · refine ⟨[], ("\n" ++ joinLines (y :: ys)).data, ?_⟩
        show ((l ++ "\n") ++ joinLines (y :: ys)).data = _
        simp [String.data_append, List.append_assoc]
      · rcases ih hmem with ⟨pre, post, hdata⟩
        refine ⟨(x ++ "\n").data ++ pre, post, ?_⟩
        show ((x ++ "\n") ++ joinLines (y :: ys)).data = _
        rw [String.data_append, hdata]
        simp [List.append_assoc]

theorem module_line_mem_composeLines (config : InterviewConfig)
    (opts : ComposeOptions) (tpl : InterviewTemplate) :
    ("Interview module: " ++ tpl.title) ∈ composeLines config opts tpl := by
  simp [composeLines]

theorem unknownErr_ne_unsupportedErr (x idv lvl : String) :
    ("Unknown templateId: " ++ x) ≠
      ("Template \"" ++ idv ++ "\" doesn\x27t support level \"" ++ lvl ++ "\"") := by
  intro h
  have h1 : ("Unknown templateId: " ++ x).data.head? = some 'U' := by
    rw [String.data_append]; rfl
  have h2 : ("Template \"" ++ idv ++ "\" doesn\x27t support level \"" ++ lvl ++
      "\"").data.head? = some 'T' := by
    simp only [String.data_append]; rfl
  rw [h] at h1
  exact absurd (h1.symm.trans h2) (by decide)

theorem compose_of_find_none (config : InterviewConfig) (opts : ComposeOptions)
    (h : findTemplate config opts.templateId = none) :
    composeInterviewPrompt config opts =
      .error ("Unknown templateId: " ++ opts.templateId) := by
  unfold composeInterviewPrompt
  rw [h]

theorem compose_of_unsupported (config : InterviewConfig) (opts : ComposeOptions)
    (tpl : InterviewTemplate) (h : findTemplate config opts.templateId = some tpl)
    (hl : tpl.levels.contains opts.level = false) :
    composeInterviewPrompt config opts =
      .error ("Template \"" ++ tpl.id ++ "\" doesn\x27t support level \"" ++
        opts.level.toStr ++ "\"") := by
  unfold composeInterviewPrompt
  rw [h]
  simp only [hl, Bool.not_false, if_true]

theorem compose_of_supported (config : InterviewConfig) (opts : ComposeOptions)
    (tpl : InterviewTemplate) (h : findTemplate config opts.templateId = some tpl)
    (hl : tpl.levels.contains opts.level = true) :
    composeInterviewPrompt config opts =
      .ok (joinLines (composeLines config opts tpl)) := by
  unfold composeInterviewPrompt
  rw [h]
  simp only [hl, Bool.not_true, Bool.false_eq_true, if_false]

theorem composeBody_ne_empty (config : InterviewConfig) (opts : ComposeOptions)
    (tpl : InterviewTemplate) : joinLines (composeLines config opts tpl) ≠ "" := by
  rcases joinLines_mem_data _ _ (module_line_mem_composeLines config opts tpl) with
    ⟨pre, post, hdata⟩
  intro hempty
  rw [hempty] at hdata
  have hnil : ([] : List Char) =
      pre ++ (("Interview module: " ++ tpl.title).data ++ post) := hdata
  rcases List.append_eq_nil.mp hnil.symm with ⟨-, h2⟩
  rcases List.append_eq_nil.mp h2 with ⟨h3, -⟩
  rw [String.data_append] at h3
  rcases List.append_eq_nil.mp h3 with ⟨h4, -⟩
  exact absurd h4 (by decide)

theorem composeBody_has_title (config : InterviewConfig) (opts : ComposeOptions)
    (tpl : InterviewTemplate) :
    strIncludes (joinLines (composeLines config opts tpl)) tpl.title = true := by
  rcases joinLines_mem_data _ _ (module_line_mem_composeLines config opts tpl) with
    ⟨pre, post, hdata⟩
  refine strIncludes_of_data _ _ (pre ++ "Interview module: ".data) post ?_
  rw [hdata, String.data_append]
  simp [List.append_assoc]

/-- C3: compose throws the unknown-template error exactly when the id names
no template; it throws the unsupported-level error exactly when the template
exists but its level list excludes the level; otherwise it succeeds with
non-empty text containing the template's title. -/
theorem c3_compose_error_cases (config : InterviewConfig) (opts : ComposeOptions) :
    (composeInterviewPrompt config opts =
        .error ("Unknown templateId: " ++ opts.templateId) ↔
      findTemplate config opts.templateId = none) ∧
    ((∃ tpl, findTemplate config opts.templateId = some tpl ∧
        composeInterviewPrompt config opts =
          .error ("Template \"" ++ tpl.id ++ "\" doesn\x27t support level \"" ++
            opts.level.toStr ++ "\"")) ↔
      (∃ tpl, findTemplate config opts.templateId = some tpl ∧
        tpl.levels.contains opts.level = false)) ∧
    (∀ tpl, findTemplate config opts.templateId = some tpl →
      tpl.levels.contains opts.level = true →
      ∃ out, composeInterviewPrompt config opts = .ok out ∧ out ≠ "" ∧
        strIncludes out tpl.title = true) := by
  refine ⟨⟨?_, compose_of_find_none config opts⟩, ⟨?_, ?_⟩, ?_⟩
  · intro herr
    cases hf : findTemplate config opts.templateId with
    | none => rfl
    | some tpl =>
      exfalso
      cases hl : tpl.levels.contains opts.level with
      | true =>
        rw [compose_of_supported config opts tpl hf hl] at herr
        exact absurd herr (by simp)
      | false =>
        rw [compose_of_unsupported config opts tpl hf hl] at herr
        exact absurd (Except.error.inj herr).symm (unknownErr_ne_unsupportedErr _ _ _)
  · rintro ⟨tpl, hf, herr⟩
    refine ⟨tpl, hf, ?_⟩
    cases hl : tpl.levels.contains opts.level with
    | false => rfl
    | true =>
      exfalso
      rw [compose_of_supported config opts tpl hf hl] at herr
      exact absurd herr (by simp)
  · rintro ⟨tpl, hf, hl⟩
    exact ⟨tpl, hf, compose_of_unsupported config opts tpl hf hl⟩
  · intro tpl hf hl
    exact ⟨joinLines (composeLines config opts tpl),
      compose_of_supported config opts tpl hf hl,
      composeBody_ne_empty config opts tpl,
      composeBody_has_title config opts tpl⟩

/-! ## Property-list lemmas -/

theorem setProp_find_self (fields : List (String × Json)) (key : String) (x : Json) :
    ((setProp fields key x).find? (fun p => p.1 == key)).map (fun p => p.2) = some x := by
  induction fields with
  | nil => simp [setProp]
  | cons kv rest ih =>
    rcases kv with ⟨k, w⟩
    by_cases hk : (k == key) = true
    · simp [setProp, hk, List.find?]
    · have hk' : (k == key) = false := by simpa using hk
      simp [setProp, hk', List.find?, ih]

theorem setProp_find_ne (fields : List (String × Json)) (key : String) (x : Json)
    (k' : String) (hne : k' ≠ key) :
    (setProp fields key x).find? (fun p => p.1 == k') =
      fields.find? (fun p => p.1 == k') := by
  induction fields with
  | nil =>
    have : (key == k') = false := by simpa using fun h => hne h.symm
    simp [setProp, List.find?, this]
  | cons kv rest ih =>
    rcases kv with ⟨k, w⟩
    by_cases hk : (k == key) = true
    · have hkk : k = key := by simpa using hk
      have h1 : (k == k') = false := by
        subst hkk
        simpa using fun h => hne h.symm
      simp [setProp, hk, List.find?, h1]
    · have hk' : (k == key) = false := by simpa using hk
      by_cases h2 : (k == k') = true
      · simp [setProp, hk', List.find?, h2]
      · have h2' : (k == k') = false := by simpa using h2
        simp [setProp, hk', List.find?, h2', ih]

theorem getField_setField_self (fields : List (String × Json)) (key : String) (x : Json) :
    ((Json.obj fields).setField key x).getField key = some x :=
  setProp_find_self fields key x

theorem getField_setField_ne (fields : List (String × Json)) (key : String) (x : Json)
    (k' : String) (hne : k' ≠ key) :
    ((Json.obj fields).setField key x).getField k' = (Json.obj fields).getField k' := by
  show ((setProp fields key x).find? _).map _ = (fields.find? _).map _
  rw [setProp_find_ne fields key x k' hne]

theorem valid_is_obj (s : Json) (h : isValidSession s = true) :
    ∃ fields, s = Json.obj fields := by
  cases s <;> simp_all [isValidSession]

/-! ## Score update lemmas -/

theorem applyScoreUpdate_score (fields : List (String × Json)) (score : JSNum)
    (notes : Option String) :
    (applyScoreUpdate score notes (Json.obj fields)).getField "score" =
      some (.num score) := by
  cases notes with
  | none => exact getField_setField_self fields "score" (.num score)
  | some n =>
    show ((Json.obj (setProp fields "score" (.num score))).setField "notes"
      (.str n)).getField "score" = some (.num score)
    rw [getField_setField_ne _ "notes" _ "score" (by decide)]
    exact getField_setField_self fields "score" (.num score)

theorem applyScoreUpdate_notes (fields : List (String × Json)) (score : JSNum)
    (notes : Option String) :
    (applyScoreUpdate score notes (Json.obj fields)).getField "notes" =
      (match notes with
       | some n => some (.str n)
       | none => (Json.obj fields).getField "notes") := by
  cases notes with
  | none =>
    exact getField_setField_ne fields "score" (.num score) "notes" (by decide)
  | some n =>
    exact getField_setField_self (setProp fields "score" (.num score)) "notes" (.str n)

theorem applyScoreUpdate_frame (fields : List (String × Json)) (score : JSNum)
    (notes : Option String) (k : String) (hk1 : k ≠ "score") (hk2 : k ≠ "notes") :
    (applyScoreUpdate score notes (Json.obj fields)).getField k =
      (Json.obj fields).getField k := by
  cases notes with
  | none => exact getField_setField_ne fields "score" (.num score) k hk1
  | some n =>
    show ((Json.obj (setProp fields "score" (.num score))).setField "notes"
      (.str n)).getField k = _
    rw [getField_setField_ne _ "notes" _ k hk2]
    exact getField_setField_ne fields "score" (.num score) k hk1

theorem applyScoreUpdate_valid (s : Json) (score : JSNum) (notes : Option String)
    (hs : isValidSession s = true) (hfin : score.isFinite = true) :
    isValidSession (applyScoreUpdate score notes s) = true := by
  rcases valid_is_obj s hs with ⟨fields, rfl⟩
  rw [isValidSession_iff_amended] at hs ⊢
  rcases hs with ⟨⟨i, hi⟩, ⟨d, hd⟩, ⟨t, ht⟩, hlvl, -, hnotes⟩
  refine ⟨⟨i, ?_⟩, ⟨d, ?_⟩, ⟨t, ?_⟩, ?_, ?_, ?_⟩
  · rw [applyScoreUpdate_frame fields score notes "id" (by decide) (by decide)]; exact hi
  · rw [applyScoreUpdate_frame fields score notes "date" (by decide) (by decide)]; exact hd
  · rw [applyScoreUpdate_frame fields score notes "templateId" (by decide) (by decide)]
    exact ht
  · rw [applyScoreUpdate_frame fields score notes "level" (by decide) (by decide)]
    exact hlvl
  · exact Or.inr ⟨score, applyScoreUpdate_score fields score notes, hfin⟩
  · rw [applyScoreUpdate_notes fields score notes]
    cases notes with
    | none => exact hnotes
    | some n => exact Or.inr ⟨n, rfl⟩

/-! ## Lemmas about the score validation and the record search -/

theorem validateScore_ok_iff (score : JSNum) :
    validateScore score = .ok () ↔ validScoreSpec score := by
  cases score with
  | nan => simp [validateScore, validScoreSpec, JSNum.isFinite, JSNum.lt]
  | posInf => simp [validateScore, validScoreSpec, JSNum.isFinite, JSNum.lt]
  | negInf => simp [validateScore, validScoreSpec, JSNum.isFinite, JSNum.lt]
  | finite q =>
    simp only [validateScore, validScoreSpec, JSNum.isFinite, JSNum.lt, Bool.not_true,
      Bool.false_or]
    constructor
    · intro h
      by_cases h0 : q < 0
      · simp [h0] at h
      · by_cases h10 : 10 < q
        · simp [h0, h10] at h
        · exact ⟨q, rfl, le_of_not_lt h0, le_of_not_lt h10⟩
    · rintro ⟨q2, hq2, h0, h10⟩
      cases hq2
      have : ¬ q < 0 := not_lt.mpr h0
      have : ¬ (10 : ℚ) < q := not_lt.mpr h10
      simp_all

theorem validateScore_error_of_invalid (score : JSNum) (h : ¬ validScoreSpec score) :
    validateScore score = .error "Score must be a finite number between 0 and 10" := by
  unfold validateScore
  split
  · rfl
  · exfalso
    exact h ((validateScore_ok_iff score).mp (by unfold validateScore; split <;> simp_all))

theorem updateFirstSession_none_iff (sessionId : String) (score : JSNum)
    (notes : Option String) (l : List Json) :
    updateFirstSession sessionId score notes l = none ↔
      ∀ s ∈ l, sessionIdIs s sessionId = false := by
  induction l with
  | nil => simp [updateFirstSession]
  | cons s rest ih =>
    by_cases h : sessionIdIs s sessionId = true
    · simp [updateFirstSession, h]
    · have hf : sessionIdIs s sessionId = false := by simpa using h
      simp [updateFirstSession, hf, ih]

theorem updateFirstSession_eq_some (sessionId : String) (score : JSNum)
    (notes : Option String) (l updated : List Json)
    (h : updateFirstSession sessionId score notes l = some updated) :
    ∃ i, ∃ hi : i < l.length,
      sessionIdIs (l.get ⟨i, hi⟩) sessionId = true ∧
      (∀ j, ∀ hj : j < i, sessionIdIs (l.get ⟨j, Nat.lt_trans hj hi⟩) sessionId = false) ∧
      updated = l.take i ++
        applyScoreUpdate score notes (l.get ⟨i, hi⟩) :: l.drop (i + 1) := by
  induction l generalizing updated with
  | nil => cases h
  | cons s rest ih =>
    rw [updateFirstSession] at h
    by_cases hs : sessionIdIs s sessionId = true
    · rw [if_pos hs] at h
      refine ⟨0, Nat.succ_pos _, hs, fun j hj => absurd hj (Nat.not_lt_zero j), ?_⟩
      simpa using h.symm
    · rw [if_neg hs] at h
      have hs' : sessionIdIs s sessionId = false := by simpa using hs
      rcases Option.map_eq_some'.mp h with ⟨rest', hrest, hupd⟩
      rcases ih rest' hrest with ⟨i, hi, hmatch, hfirst, hshape⟩
      refine ⟨i + 1, Nat.succ_lt_succ hi, by simpa using hmatch, ?_, ?_⟩
      · intro j hj
        cases j with
        | zero => simpa using hs'
        | succ j' => simpa using hfirst j' (Nat.lt_of_succ_lt_succ hj)
      · subst hupd
        simp [hshape]

theorem updateFirstSession_isSome (sessionId : String) (score : JSNum)
    (notes : Option String) (l : List Json)
    (h : ∃ s ∈ l, sessionIdIs s sessionId = true) :
    ∃ updated, updateFirstSession sessionId score notes l = some updated := by
  cases hu : updateFirstSession sessionId score notes l with
  | some updated => exact ⟨updated, rfl⟩
  | none =>
    rcases h with ⟨s, hs, hid⟩
    rw [(updateFirstSession_none_iff sessionId score notes l).mp hu s hs] at hid
    cases hid

theorem readSessions_all_valid (file : StoreFile) (s : Json)
    (h : s ∈ readSessions file) : isValidSession s = true := by
  cases file with
  | parsed v =>
    cases v with
    | arr elems => exact (List.mem_filter.mp h).2
    | null => cases h
    | bool b => cases h
    | num n => cases h
    | str t => cases h
    | obj fields => cases h
  | missing => cases h
  | blank => cases h
  | malformed => cases h

/-- C4: an update with a score that is not a finite number within [0, 10]
(NaN and the infinities included) fails with the invalid-score error, and an
update with a valid score but an id matching no stored record fails with the
not-found error; in both cases the persisted store file is unchanged. -/
theorem c4_update_failures (file : StoreFile) (sessionId : String) (score : JSNum)
    (notes : Option String) :
    (¬ validScoreSpec score →
      updateSessionScore file sessionId score notes =
        .error "Score must be a finite number between 0 and 10" ∧
      updateSessionScoreFile file sessionId score notes = file) ∧
    (validScoreSpec score →
      (∀ s ∈ readSessions file, sessionIdIs s sessionId = false) →
      updateSessionScore file sessionId score notes = .error "Session not found" ∧
      updateSessionScoreFile file sessionId score notes = file) := by
  constructor
  · intro hbad
    have herr :
        updateSessionScore file sessionId score notes =
          .error "Score must be a finite number between 0 and 10" := by
      unfold updateSessionScore
      rw [validateScore_error_of_invalid score hbad]
    refine ⟨herr, ?_⟩
    unfold updateSessionScoreFile
    rw [herr]
  · intro hgood hnone
    have herr : updateSessionScore file sessionId score notes =
        .error "Session not found" := by
      unfold updateSessionScore
      rw [(validateScore_ok_iff score).mpr hgood]
      show (match updateFirstSession sessionId score notes (readSessions file) with
            | none => Except.error "Session not found"
            | some updated => Except.ok (writeSessions updated)) =
          Except.error "Session not found"
      rw [(updateFirstSession_none_iff sessionId score notes _).mpr hnone]
    refine ⟨herr, ?_⟩
    unfold updateSessionScoreFile
    rw [herr]

/-- Witness for C4: on a store holding one record, an update with score NaN
fails with the invalid-score error, and an update with score 5 against an
unknown id fails with the not-found error; the file is unchanged both
times. -/
theorem c4_update_failures_witness :
    updateSessionScore (writeSessions [oldTieRecord]) "old-id" .nan none =
        .error "Score must be a finite number between 0 and 10" ∧
    updateSessionScoreFile (writeSessions [oldTieRecord]) "old-id" .nan none =
      writeSessions [oldTieRecord] ∧
    updateSessionScore (writeSessions [oldTieRecord]) "missing-id" (.finite 5) none =
      .error "Session not found" ∧
    updateSessionScoreFile (writeSessions [oldTieRecord]) "missing-id" (.finite 5) none =
      writeSessions [oldTieRecord] := by
  have h1 := (c4_update_failures (writeSessions [oldTieRecord]) "old-id" .nan none).1
    (by rintro ⟨q, hq, -⟩; cases hq)
  have h2 := (c4_update_failures (writeSessions [oldTieRecord]) "missing-id"
      (.finite 5) none).2
    ⟨5, rfl, by norm_num, by norm_num⟩
    (by
      intro s hs
      rw [show readSessions (writeSessions [oldTieRecord]) = [oldTieRecord] from rfl] at hs
      rcases List.mem_singleton.mp hs with rfl
      rfl)
  exact ⟨h1.1, h1.2, h2.1, h2.2⟩

theorem updateSessionScore_ok (file : StoreFile) (sessionId : String) (score : JSNum)
    (notes : Option String) (updated : List Json)
    (hgood : validScoreSpec score)
    (hsome : updateFirstSession sessionId score notes (readSessions file) = some updated) :
    updateSessionScore file sessionId score notes = .ok (writeSessions updated) := by
  unfold updateSessionScore
  rw [(validateScore_ok_iff score).mpr hgood]
  show (match updateFirstSession sessionId score notes (readSessions file) with
        | none => Except.error "Session not found"
        | some updated => Except.ok (writeSessions updated)) =
      Except.ok (writeSessions updated)
  rw [hsome]

/-- C5: a successful update on a store containing the id rewrites exactly the
first matching record — its score becomes the given value, its notes are
replaced only when a notes argument is provided (otherwise kept), every other
property of that record (id, date, templateId, level included) is untouched,
and every other record of the store is written back unchanged. -/
theorem c5_update_success (file : StoreFile) (sessionId : String) (score : JSNum)
    (notes : Option String) (hscore : validScoreSpec score)
    (hexists : ∃ s ∈ readSessions file, sessionIdIs s sessionId = true) :
    ∃ i, ∃ hi : i < (readSessions file).length,
      sessionIdIs ((readSessions file).get ⟨i, hi⟩) sessionId = true ∧
      (∀ j, ∀ hj : j < i,
        sessionIdIs ((readSessions file).get ⟨j, Nat.lt_trans hj hi⟩) sessionId = false) ∧
      updateSessionScore file sessionId score notes =
        .ok (writeSessions ((readSessions file).take i ++
          applyScoreUpdate score notes ((readSessions file).get ⟨i, hi⟩) ::
            (readSessions file).drop (i + 1))) ∧
      (applyScoreUpdate score notes ((readSessions file).get ⟨i, hi⟩)).getField "score" =
        some (.num score) ∧
      (applyScoreUpdate score notes ((readSessions file).get ⟨i, hi⟩)).getField "notes" =
        (match notes with
         | some n => some (.str n)
         | none => ((readSessions file).get ⟨i, hi⟩).getField "notes") ∧
      (∀ k, k ≠ "score" → k ≠ "notes" →
        (applyScoreUpdate score notes ((readSessions file).get ⟨i, hi⟩)).getField k =
          ((readSessions file).get ⟨i, hi⟩).getField k) := by
  rcases updateFirstSession_isSome sessionId score notes _ hexists with ⟨updated, hsome⟩
  rcases updateFirstSession_eq_some sessionId score notes _ _ hsome with
    ⟨i, hi, hmatch, hfirst, hshape⟩
  have hvalid := readSessions_all_valid file _ (List.get_mem (readSessions file) i hi)
  rcases valid_is_obj _ hvalid with ⟨fields, hobj⟩
  refine ⟨i, hi, hmatch, hfirst, ?_, ?_, ?_, ?_⟩
  · exact updateSessionScore_ok file sessionId score notes _ hscore (hshape ▸ hsome)
  · rw [hobj]
    exact applyScoreUpdate_score fields score notes
  · rw [hobj]
    exact applyScoreUpdate_notes fields score notes
  · intro k hk1 hk2
    rw [hobj]
    exact applyScoreUpdate_frame fields score notes k hk1 hk2

/-- Witness for C5 at a one-record store: updating "old-id" with score 8.5
and notes "good". -/
theorem c5_update_success_witness :
    ∃ i, ∃ hi : i < (readSessions (writeSessions [oldTieRecord])).length,
      sessionIdIs ((readSessions (writeSessions [oldTieRecord])).get ⟨i, hi⟩)
        "old-id" = true ∧
      (∀ j, ∀ hj : j < i,
        sessionIdIs ((readSessions (writeSessions [oldTieRecord])).get
          ⟨j, Nat.lt_trans hj hi⟩) "old-id" = false) ∧
      updateSessionScore (writeSessions [oldTieRecord]) "old-id" (.finite (17 / 2))
          (some "good") =
        .ok (writeSessions ((readSessions (writeSessions [oldTieRecord])).take i ++
          applyScoreUpdate (.finite (17 / 2)) (some "good")
            ((readSessions (writeSessions [oldTieRecord])).get ⟨i, hi⟩) ::
              (readSessions (writeSessions [oldTieRecord])).drop (i + 1))) ∧
      (applyScoreUpdate (.finite (17 / 2)) (some "good")
          ((readSessions (writeSessions [oldTieRecord])).get ⟨i, hi⟩)).getField "score" =
        some (.num (.finite (17 / 2))) ∧
      (applyScoreUpdate (.finite (17 / 2)) (some "good")
          ((readSessions (writeSessions [oldTieRecord])).get ⟨i, hi⟩)).getField "notes" =
        (match (some "good" : Option String) with
         | some n => some (.str n)
         | none => ((readSessions (writeSessions [oldTieRecord])).get
             ⟨i, hi⟩).getField "notes") ∧
      (∀ k, k ≠ "score" → k ≠ "notes" →
        (applyScoreUpdate (.finite (17 / 2)) (some "good")
            ((readSessions (writeSessions [oldTieRecord])).get ⟨i, hi⟩)).getField k =
          ((readSessions (writeSessions [oldTieRecord])).get ⟨i, hi⟩).getField k) :=
  c5_update_success (writeSessions [oldTieRecord]) "old-id" (.finite (17 / 2))
    (some "good")
    ⟨17 / 2, rfl, by norm_num, by norm_num⟩
    ⟨oldTieRecord, by
      rw [show readSessions (writeSessions [oldTieRecord]) = [oldTieRecord] from rfl]
      exact List.mem_singleton.mpr rfl, rfl⟩

theorem valid_encodeNewSession (freshId nowDate templateId : String) (lvl : Level) :
    isValidSession (encodeNewSession freshId nowDate templateId lvl) = true := by
  cases lvl <;> rfl

theorem updateSessionScore_ok_inv (file : StoreFile) (sessionId : String)
    (score : JSNum) (notes : Option String) (file' : StoreFile)
    (h : updateSessionScore file sessionId score notes = .ok file') :
    validScoreSpec score ∧ ∃ updated,
      updateFirstSession sessionId score notes (readSessions file) = some updated ∧
      file' = writeSessions updated := by
  unfold updateSessionScore at h
  cases hv : validateScore score with
  | error e => rw [hv] at h; cases h
  | ok u =>
    cases u
    rw [hv] at h
    have h2 : (match updateFirstSession sessionId score notes (readSessions file) with
        | none => Except.error "Session not found"
        | some updated => Except.ok (writeSessions updated)) = Except.ok file' := h
    cases hu : updateFirstSession sessionId score notes (readSessions file) with
    | none => rw [hu] at h2; cases h2
    | some updated =>
      rw [hu] at h2
      exact ⟨(validateScore_ok_iff score).mp hv, updated, rfl,
        (Except.ok.inj h2).symm⟩

/-- C9: after every successful mutation the persisted array holds only
records satisfying `isValidSession` — a create writes the filtered list plus
the (valid) fresh record, and a successful score update writes the filtered
list with one record validly rewritten, so records failing the predicate are
removed from disk by the next mutation. -/
theorem c9_mutations_persist_only_valid (file : StoreFile) :
    (∀ templateId lvl freshId nowDate,
      ∀ s ∈ storedRecords (createSession file templateId lvl freshId nowDate).2,
        isValidSession s = true) ∧
    (∀ sessionId score notes file',
      updateSessionScore file sessionId score notes = .ok file' →
      ∀ s ∈ storedRecords file', isValidSession s = true) := by
  constructor
  · intro templateId lvl freshId nowDate s hs
    have hs' : s ∈ readSessions file ++ [encodeNewSession freshId nowDate templateId lvl] :=
      hs
    rcases List.mem_append.mp hs' with hold | hnew
    · exact readSessions_all_valid file s hold
    · rcases List.mem_singleton.mp hnew with rfl
      exact valid_encodeNewSession freshId nowDate templateId lvl
  · intro sessionId score notes file' h s hs
    rcases updateSessionScore_ok_inv file sessionId score notes file' h with
      ⟨hgood, updated, hu, rfl⟩
    have hs' : s ∈ updated := hs
    rcases updateFirstSession_eq_some sessionId score notes _ _ hu with
      ⟨i, hi, -, -, hshape⟩
    subst hshape
    have hfin : score.isFinite = true := by
      rcases hgood with ⟨q, rfl, -, -⟩
      rfl
    rcases List.mem_append.mp hs' with htake | hrest
    · exact readSessions_all_valid file s (List.take_subset i _ htake)
    · rcases List.mem_cons.mp hrest with rfl | hdrop
      · exact applyScoreUpdate_valid _ score notes
          (readSessions_all_valid file _ (List.get_mem (readSessions file) i hi)) hfin
      · exact readSessions_all_valid file s (List.drop_subset (i + 1) _ hdrop)

/-- Witness for C9: on a one-record store, the record created alongside it
and the record rewritten by a successful update are both valid. -/
theorem c9_mutations_persist_only_valid_witness :
    isValidSession newTieRecord = true ∧
    updateSessionScore (writeSessions [oldTieRecord]) "old-id" (.finite 7) none =
      .ok (writeSessions [applyScoreUpdate (.finite 7) none oldTieRecord]) ∧
    isValidSession (applyScoreUpdate (.finite 7) none oldTieRecord) = true := by
  have hok : updateSessionScore (writeSessions [oldTieRecord]) "old-id"
      (.finite 7) none = .ok (writeSessions [applyScoreUpdate (.finite 7) none oldTieRecord]) :=
    updateSessionScore_ok (writeSessions [oldTieRecord]) "old-id" (.finite 7) none
      [applyScoreUpdate (.finite 7) none oldTieRecord]
      ⟨7, rfl, by norm_num, by norm_num⟩ rfl
  refine ⟨?_, hok, ?_⟩
  · exact (c9_mutations_persist_only_valid (writeSessions [oldTieRecord])).1
      "t1" .senior "new-id" "2026-02-02T10:00:00.000Z" newTieRecord
      (by
        rw [show storedRecords (createSession (writeSessions [oldTieRecord]) "t1"
          .senior "new-id" "2026-02-02T10:00:00.000Z").2 =
            [oldTieRecord, newTieRecord] from rfl]
        exact List.mem_cons_of_mem _ (List.mem_singleton.mpr rfl))
  · exact (c9_mutations_persist_only_valid (writeSessions [oldTieRecord])).2
      "old-id" (.finite 7) none
      (writeSessions [applyScoreUpdate (.finite 7) none oldTieRecord]) hok
      (applyScoreUpdate (.finite 7) none oldTieRecord)
      (List.mem_singleton.mpr rfl)

/-! ## Sorting lemmas for listSessions -/

theorem sessionLe_trans (a b c : Json) :
    sessionLe a b → sessionLe b c → sessionLe a c := by
  unfold sessionLe
  intro h1 h2
  exact decide_eq_true (le_trans (of_decide_eq_true h2) (of_decide_eq_true h1))

theorem sessionLe_total (a b : Json) : sessionLe a b || sessionLe b a := by
  unfold sessionLe
  simp only [Bool.or_eq_true, decide_eq_true_eq]
  exact le_total (dateOf b) (dateOf a)

theorem readSessions_filter (file : StoreFile) :
    (readSessions file).filter isValidSession = readSessions file := by
  cases file with
  | parsed v =>
    cases v with
    | arr elems => simp [readSessions, List.filter_filter, Bool.and_self]
    | null => rfl
    | bool b => rfl
    | num n => rfl
    | str s => rfl
    | obj fields => rfl
  | missing => rfl
  | blank => rfl
  | malformed => rfl

theorem readSessions_after_create (file : StoreFile) (templateId : String)
    (lvl : Level) (freshId nowDate : String) :
    readSessions (createSession file templateId lvl freshId nowDate).2 =
      readSessions file ++ [encodeNewSession freshId nowDate templateId lvl] := by
  show (readSessions file ++
      [encodeNewSession freshId nowDate templateId lvl]).filter isValidSession = _
  rw [List.filter_append, readSessions_filter]
  simp [valid_encodeNewSession]

/-- C7 (amended): `listSessions` is a permutation of the valid stored records,
sorted by descending date string, and the sort is stable (any
comparator-sorted sublist of the input stays a sublist of the output); a
record created with a date STRICTLY later than every stored record's date is
listed first.  (With an equal date the stable sort keeps the older record
first — see the tie counterexample.) -/
theorem c7_list_sorted_amended (file : StoreFile) :
    List.Perm (listSessions file) (readSessions file) ∧
    List.Pairwise (fun a b => dateOf b ≤ dateOf a) (listSessions file) ∧
    (∀ sub : List Json, List.Pairwise (fun a b => sessionLe a b) sub →
      List.Sublist sub (readSessions file) → List.Sublist sub (listSessions file)) ∧
    (∀ templateId lvl freshId nowDate,
      (∀ s ∈ readSessions file, dateOf s < nowDate) →
      (listSessions (createSession file templateId lvl freshId nowDate).2).head? =
        some (encodeNewSession freshId nowDate templateId lvl)) := by
  refine ⟨List.mergeSort_perm _ _, ?_, ?_, ?_⟩
  · exact (List.sorted_mergeSort sessionLe_trans sessionLe_total
      (readSessions file)).imp (fun h => of_decide_eq_true h)
  · intro sub hpw hsub
    exact List.sublist_mergeSort sessionLe_trans sessionLe_total hpw hsub
  · intro templateId lvl freshId nowDate hlater
    have hread := readSessions_after_create file templateId lvl freshId nowDate
    show (List.mergeSort
        (readSessions (createSession file templateId lvl freshId nowDate).2)
        sessionLe).head? = _
    rw [hread]
    set newRec := encodeNewSession freshId nowDate templateId lvl with hnew
    set L := readSessions file ++ [newRec] with hL
    have hperm := List.mergeSort_perm L sessionLe
    have hsorted := List.sorted_mergeSort sessionLe_trans sessionLe_total L
    have hmemN : newRec ∈ List.mergeSort L sessionLe :=
      List.mem_mergeSort.mpr (by simp [hL])
    have hnowdate : dateOf newRec = nowDate := rfl
    cases hms : List.mergeSort L sessionLe with
    | nil =>
      rw [hms] at hmemN
      cases hmemN
    | cons hd tl =>
      rw [hms] at hmemN hsorted hperm
      have hdmem : hd ∈ L := hperm.subset (List.mem_cons_self hd tl)
      show some hd = some newRec
      rcases List.mem_cons.mp hmemN with heq | htl
      · rw [heq]
      · have hle : sessionLe hd newRec := List.rel_of_pairwise_cons hsorted htl
        unfold sessionLe at hle
        have hle' : dateOf newRec ≤ dateOf hd := of_decide_eq_true hle
        rcases List.mem_append.mp hdmem with hold | hnewm
        · have hlt : dateOf hd < nowDate := hlater hd hold
          rw [hnowdate] at hle'
          exact absurd (lt_of_le_of_lt hle' hlt) (lt_irrefl _)
        · rcases List.mem_singleton.mp hnewm with rfl
          rfl

/-- Witness for C7 at a one-record store and a strictly later creation
date. -/
theorem c7_list_sorted_witness :
    (listSessions (createSession (writeSessions [oldTieRecord]) "t1" Level.senior
        "new-id2" "2026-03-01T00:00:00.000Z").2).head? =
      some (encodeNewSession "new-id2" "2026-03-01T00:00:00.000Z" "t1" Level.senior) :=
  (c7_list_sorted_amended (writeSessions [oldTieRecord])).2.2.2 "t1" Level.senior
    "new-id2" "2026-03-01T00:00:00.000Z"
    (by
      intro s hs
      rw [show readSessions (writeSessions [oldTieRecord]) = [oldTieRecord] from rfl] at hs
      rcases List.mem_singleton.mp hs with rfl
      show dateOf oldTieRecord < "2026-03-01T00:00:00.000Z"
      rw [show dateOf oldTieRecord = "2026-02-02T10:00:00.000Z" from rfl,
        String.lt_iff_toList_lt]
      decide)

/-- C7, counterexample to the claim as stated: when the created record's date
EQUALS the stored record's date (so no record has a later timestamp), the
stable sort keeps the previously stored record first and the new record is
NOT the first element of `list()`. -/
theorem c7_tie_counterexample :
    dateOf oldTieRecord = dateOf newTieRecord ∧
    (createSession (writeSessions [oldTieRecord]) "t1" Level.senior "new-id"
        "2026-02-02T10:00:00.000Z").1 = newTieRecord ∧
    listSessions (createSession (writeSessions [oldTieRecord]) "t1" Level.senior
        "new-id" "2026-02-02T10:00:00.000Z").2 = [oldTieRecord, newTieRecord] ∧
    (listSessions (createSession (writeSessions [oldTieRecord]) "t1" Level.senior
        "new-id" "2026-02-02T10:00:00.000Z").2).head? ≠ some newTieRecord := by
  have hpair : List.Pairwise (fun a b => sessionLe a b) [oldTieRecord, newTieRecord] := by
    refine List.pairwise_cons.mpr ⟨?_, List.pairwise_singleton _ _⟩
    intro b hb
    rcases List.mem_singleton.mp hb with rfl
    show sessionLe oldTieRecord newTieRecord = true
    unfold sessionLe
    rw [show dateOf newTieRecord = dateOf oldTieRecord from rfl]
    exact decide_eq_true le_rfl
  have hlist : listSessions (createSession (writeSessions [oldTieRecord]) "t1"
      Level.senior "new-id" "2026-02-02T10:00:00.000Z").2 =
      [oldTieRecord, newTieRecord] := by
    show List.mergeSort (readSessions (createSession (writeSessions [oldTieRecord])
      "t1" Level.senior "new-id" "2026-02-02T10:00:00.000Z").2) sessionLe = _
    rw [show readSessions (createSession (writeSessions [oldTieRecord]) "t1"
      Level.senior "new-id" "2026-02-02T10:00:00.000Z").2 =
        [oldTieRecord, newTieRecord] from rfl]
    exact List.mergeSort_of_sorted hpair
  have hne : oldTieRecord ≠ newTieRecord := by
    intro h
    have h1 : oldTieRecord.getField "id" = some (.str "old-id") := rfl
    have h2 : newTieRecord.getField "id" = some (.str "new-id") := rfl
    rw [h] at h1
    have h3 := h2.symm.trans h1
    simp at h3
  refine ⟨rfl, rfl, hlist, ?_⟩
  rw [hlist]
  intro h
  exact hne (Option.some.inj h)

/-- C2, evidence at a concrete input: the configuration's single template
declares `promptOverrides` with followUps 2 and include `[idealAnswer]`, yet
the composed text asks the default 3 follow-up questions and still prints the
"- Common mistakes" section from the default include set: lines 62-63 of
`composeInterviewPrompt.ts` read only `config.defaults`, contradicting the
repository documentation of `promptOverrides`. -/
theorem c2_overrides_ignored :
    overrideConfig.defaults.followUps = 3 ∧
    overrideTemplate.promptOverrides =
      some { followUps := some 2, includeSections := some [.idealAnswer] } ∧
    findTemplate overrideConfig "t1" = some overrideTemplate ∧
    strIncludes (composeOutput overrideConfig overrideOpts)
      "Ask 1 main question and 3 follow-up questions" = true ∧
    strIncludes (composeOutput overrideConfig overrideOpts) "2 follow-up" = false ∧
    strIncludes (composeOutput overrideConfig overrideOpts) "- Common mistakes" = true := by
  set_option maxRecDepth 10000 in
  refine ⟨rfl, rfl, rfl, ?_, ?_, ?_⟩ <;> decide

/-- Witness for C3: the success branch at the concrete override
configuration. -/
theorem c3_compose_error_cases_witness :
    ∃ out, composeInterviewPrompt overrideConfig overrideOpts = .ok out ∧ out ≠ "" ∧
      strIncludes out overrideTemplate.title = true :=
  (c3_compose_error_cases overrideConfig overrideOpts).2.2 overrideTemplate rfl rfl

/-- Witness for C1 (amended) at the concrete empty-id record. -/
theorem c1_load_validity_witness :
    emptyIdRecord ∈ readSessions (.parsed (.arr [emptyIdRecord])) ↔
      emptyIdRecord ∈ [emptyIdRecord] ∧ amendedSessionValid emptyIdRecord :=
  c1_load_validity [emptyIdRecord] emptyIdRecord

/-- Witness for C6 at a concrete one-element array. -/
theorem c6_read_never_fails_witness :
    readSessions (.parsed (.arr [emptyIdRecord])) =
      [emptyIdRecord].filter isValidSession :=
  c6_read_never_fails.2.2.2.2 [emptyIdRecord]

/-- Witness for C10 at the empty answer. -/
theorem c10_scorer_range_witness :
    0 ≤ (basicScoreEvaluation "").score ∧
    (basicScoreEvaluation "").score ≤ 10 ∧
    (basicScoreEvaluation "").score =
      min ((jsRound (min ((String.length "" : ℚ) / 200) 3 +
        (if strIncludes (String.toLower "") "trade-off" then 2 else 0) +
        (if strIncludes (String.toLower "") "o(" then 2 else 0)) : ℤ) : ℚ) 10 :=
  c10_scorer_range ""

end FMP
